import Mathlib

/-!
# jsonapi: the JSON-over-HTTP handlers of the mailing-list server

A shallow embedding of `src/jsonapi/jsonapi.go`.

* The handlers run against two pieces of the outside world: the
  `http.ResponseWriter` and the data-access package `mdb`.  Both are recorded
  as ordered logs of the calls a handler makes (`WCall`, `Call`); the state
  of the database behind the `*sql.DB` handle is threaded through explicitly.
* Package `mdb` is not part of the sources.  Its five operations are a
  parameter (`Mdb`); the types it declares are modelled from the spec.
* `encoding/json` is a parameter as well (`Json`): which request bodies are
  syntactically valid, what a valid body decodes to, and which values
  `json.Marshal` accepts.
* `log.Printf` / `log.Println` calls are dropped: no claim observes them.
-/

namespace jsonapi

/-! ## Data -/

/-- A Go `error` value as far as the handlers observe it: the text that
`Error()` returns and whether `json.Marshal` accepts the value. -/
structure GoError where
  msg : String
  marshals : Bool
  deriving DecidableEq, Repr

/-- Modelled from the spec: the struct `mdb.EmailEntry` is declared in package
`mdb`, which is not among the sources.  The spec gives it the attribute
`Email` (string, unique identifier) plus profile fields owned by the
collaborator; the handlers only read `Email`, so the remaining fields are kept
as one component of an arbitrary type `ρ`. -/
structure EmailEntry (ρ : Type) where
  Email : String
  rest : ρ
  deriving DecidableEq, Repr

/-- The Go zero value `mdb.EmailEntry{}`. -/
def EmailEntry.zero {ρ : Type} [Inhabited ρ] : EmailEntry ρ := ⟨"", default⟩

/-- Modelled from the spec: the struct `mdb.GetEmailBatchQueryParams` is
declared in package `mdb`, which is not among the sources.  The spec gives it
the integer attributes `Page` and `Count`; the handler compares both with 0. -/
structure GetEmailBatchQueryParams where
  Page : Int
  Count : Int
  deriving DecidableEq, Repr

/-- The Go zero value `mdb.GetEmailBatchQueryParams{}`. -/
def GetEmailBatchQueryParams.zero : GetEmailBatchQueryParams := ⟨0, 0⟩

/-- The values that reach `json.Marshal(&data)` in `returnJson` (there `T` is
`interface{}` at every call site): the anonymous `struct{ Err string }` built
by `returnErr`, the result of `mdb.GetEmail` (a record or nothing) and the
result of `mdb.GetEmailBatch` (a page of records). -/
inductive Any (ρ : Type) where
  | errorMessage (Err : String)
  | entry (p : Option (EmailEntry ρ))
  | batch (es : List (EmailEntry ρ))
  deriving DecidableEq, Repr

/-- The byte slices handed to `w.Write`: each is the output of a successful
`json.Marshal`, kept as the value that was encoded. -/
inductive Bytes (ρ : Type) where
  | ofValue (v : Any ρ)
  | ofError (e : GoError)
  deriving DecidableEq, Repr

/-- The part of `encoding/json` the handlers rely on.  `Valid` is `json.Valid`;
`Unmarshal` checks it before it touches the target and the empty input is not
valid JSON.  `decodeEntry` / `decodeParams` give what `Unmarshal` stores into
the target for a valid input; `encodes` says whether `json.Marshal` succeeds on
a value obtained from `mdb`. -/
structure Json (ρ : Type) where
  Valid : String → Bool
  empty_invalid : Valid "" = false
  decodeEntry : String → EmailEntry ρ → EmailEntry ρ
  decodeParams : String → GetEmailBatchQueryParams → GetEmailBatchQueryParams
  encodes : Any ρ → Bool

/-- Model of `json.Unmarshal(data, &target)`: the target afterwards.  An input
that is not valid JSON leaves the target as it was.  The error result is left
out: the only caller, `fromJson`, discards it. -/
def Json.Unmarshal {ρ T : Type} (J : Json ρ) (decode : String → T → T)
    (data : String) (target : T) : T :=
  if J.Valid data then decode data target else target

/-- Model of `json.Marshal(&data)`: a struct of one string always encodes. -/
def Json.Marshal {ρ : Type} (J : Json ρ) : Any ρ → Option (Bytes ρ)
  | .errorMessage m => some (.ofValue (.errorMessage m))
  | v => if J.encodes v then some (.ofValue v) else none

/-- Model of `json.Marshal(&serverErr)`. -/
def marshalError {ρ : Type} (e : GoError) : Option (Bytes ρ) :=
  if e.marshals then some (.ofError e) else none

/-- The operations of package `mdb`, each taking and returning the state of
the database behind the `*sql.DB` handle. -/
structure Mdb (σ ρ : Type) where
  CreateEmail : σ → String → σ × Option GoError
  GetEmail : σ → String → σ × (Option (EmailEntry ρ) × Option GoError)
  UpdateEmail : σ → EmailEntry ρ → σ × Option GoError
  DeleteEmail : σ → String → σ × Option GoError
  GetEmailBatch : σ → GetEmailBatchQueryParams →
    σ × (List (EmailEntry ρ) × Option GoError)

/-- Which `mdb` operation was called, with its arguments. -/
inductive Op (ρ : Type) where
  | CreateEmail (email : String)
  | GetEmail (email : String)
  | UpdateEmail (entry : EmailEntry ρ)
  | DeleteEmail (email : String)
  | GetEmailBatch (params : GetEmailBatchQueryParams)
  deriving DecidableEq, Repr

/-- One call into `mdb` together with the error it returned. -/
structure Call (ρ : Type) where
  op : Op ρ
  err : Option GoError
  deriving DecidableEq, Repr

/-- One call on the `http.ResponseWriter`. -/
inductive WCall (ρ : Type) where
  | setHeader (key value : String)
  | writeHeader (code : Int)
  | write (b : Bytes ρ)
  deriving DecidableEq, Repr

/-- What a handler acts on: the database, the log of `mdb` calls and the log
of calls on the response writer. -/
structure World (σ ρ : Type) where
  db : σ
  calls : List (Call ρ)
  w : List (WCall ρ)

/-- The world at the start of a request: nothing called yet. -/
def World.init {σ ρ : Type} (db : σ) : World σ ρ := ⟨db, [], []⟩

/-- The part of `*http.Request` the handlers read. -/
structure Request where
  Method : String
  Body : String
  deriving DecidableEq, Repr

/-! ## Calls on the response writer and on `mdb` -/

section
variable {σ ρ : Type}

def World.setHeader (s : World σ ρ) (key value : String) : World σ ρ :=
  { s with w := s.w ++ [.setHeader key value] }

def World.WriteHeader (s : World σ ρ) (code : Int) : World σ ρ :=
  { s with w := s.w ++ [.writeHeader code] }

def World.Write (s : World σ ρ) (b : Bytes ρ) : World σ ρ :=
  { s with w := s.w ++ [.write b] }

def mdbCreateEmail (m : Mdb σ ρ) (email : String) (s : World σ ρ) :
    Option GoError × World σ ρ :=
  let r := m.CreateEmail s.db email
  (r.2, { s with db := r.1, calls := s.calls ++ [⟨.CreateEmail email, r.2⟩] })

def mdbUpdateEmail (m : Mdb σ ρ) (entry : EmailEntry ρ) (s : World σ ρ) :
    Option GoError × World σ ρ :=
  let r := m.UpdateEmail s.db entry
  (r.2, { s with db := r.1, calls := s.calls ++ [⟨.UpdateEmail entry, r.2⟩] })

def mdbDeleteEmail (m : Mdb σ ρ) (email : String) (s : World σ ρ) :
    Option GoError × World σ ρ :=
  let r := m.DeleteEmail s.db email
  (r.2, { s with db := r.1, calls := s.calls ++ [⟨.DeleteEmail email, r.2⟩] })

def mdbGetEmail (m : Mdb σ ρ) (email : String) (s : World σ ρ) :
    (Any ρ × Option GoError) × World σ ρ :=
  let r := m.GetEmail s.db email
  ((.entry r.2.1, r.2.2),
    { s with db := r.1, calls := s.calls ++ [⟨.GetEmail email, r.2.2⟩] })

def mdbGetEmailBatch (m : Mdb σ ρ) (params : GetEmailBatchQueryParams)
    (s : World σ ρ) : (Any ρ × Option GoError) × World σ ρ :=
  let r := m.GetEmailBatch s.db params
  ((.batch r.2.1, r.2.2),
    { s with db := r.1, calls := s.calls ++ [⟨.GetEmailBatch params, r.2.2⟩] })

/-! ## The functions of `jsonapi.go` -/

/-- The value `setJsonHeader` stores under `Content-Type`. -/
def jsonContentType : String := "application/json; charset=utf-8"

/-- `setJsonHeader` (jsonapi.go:14). -/
def setJsonHeader (s : World σ ρ) : World σ ρ :=
  s.setHeader "Content-Type" jsonContentType

/-- `fromJson` (jsonapi.go:18): the error of `json.Unmarshal` is dropped. -/
def fromJson {T : Type} (J : Json ρ) (decode : String → T → T) (body : String)
    (target : T) : T :=
  J.Unmarshal decode body target

/-- `returnJson` (jsonapi.go:24). -/
def returnJson (J : Json ρ)
    (withData : World σ ρ → (Any ρ × Option GoError) × World σ ρ)
    (s : World σ ρ) : World σ ρ :=
  let s := setJsonHeader s
  match withData s with
  | ((_, some serverErr), s) =>
    let s := s.WriteHeader 500
    match marshalError serverErr with
    | none => s
    | some serverErrJson => s.Write serverErrJson
  | ((data, none), s) =>
    match J.Marshal data with
    | none => s.WriteHeader 500
    | some dataJson => s.Write dataJson

/-- `returnErr` (jsonapi.go:48). -/
def returnErr (J : Json ρ) (err : GoError) (code : Int) (s : World σ ρ) :
    World σ ρ :=
  returnJson J (fun s => ((.errorMessage err.msg, none), s.WriteHeader code)) s

/-- `CreateEmail` (jsonapi.go:60). -/
def CreateEmail [Inhabited ρ] (J : Json ρ) (m : Mdb σ ρ) (request : Request)
    (s : World σ ρ) : World σ ρ :=
  if request.Method ≠ "POST" then s
  else
    let entry := fromJson J J.decodeEntry request.Body EmailEntry.zero
    match mdbCreateEmail m entry.Email s with
    | (some err, s) => returnErr J err 400 s
    | (none, s) => returnJson J (mdbGetEmail m entry.Email) s

/-- `GetEmail` (jsonapi.go:81); line 90 calls `mdb.CreateEmail`. -/
def GetEmail [Inhabited ρ] (J : Json ρ) (m : Mdb σ ρ) (request : Request)
    (s : World σ ρ) : World σ ρ :=
  if request.Method ≠ "GET" then s
  else
    let entry := fromJson J J.decodeEntry request.Body EmailEntry.zero
    match mdbCreateEmail m entry.Email s with
    | (some err, s) => returnErr J err 400 s
    | (none, s) => returnJson J (mdbGetEmail m entry.Email) s

/-- `UpdateEmail` (jsonapi.go:102). -/
def UpdateEmail [Inhabited ρ] (J : Json ρ) (m : Mdb σ ρ) (request : Request)
    (s : World σ ρ) : World σ ρ :=
  if request.Method ≠ "PUT" then s
  else
    let entry := fromJson J J.decodeEntry request.Body EmailEntry.zero
    match mdbUpdateEmail m entry s with
    | (some err, s) => returnErr J err 400 s
    | (none, s) => returnJson J (mdbGetEmail m entry.Email) s

/-- `DeleteEmail` (jsonapi.go:123). -/
def DeleteEmail [Inhabited ρ] (J : Json ρ) (m : Mdb σ ρ) (request : Request)
    (s : World σ ρ) : World σ ρ :=
  if request.Method ≠ "POST" then s
  else
    let entry := fromJson J J.decodeEntry request.Body EmailEntry.zero
    match mdbDeleteEmail m entry.Email s with
    | (some err, s) => returnErr J err 400 s
    | (none, s) => returnJson J (mdbGetEmail m entry.Email) s

/-- The error `GetEmailBatch` builds with `errors.New`. -/
def batchParamsError : GoError :=
  ⟨"Page and Count fields are required and must be > 0", true⟩

/-- `GetEmailBatch` (jsonapi.go:144). -/
def GetEmailBatch (J : Json ρ) (m : Mdb σ ρ) (request : Request)
    (s : World σ ρ) : World σ ρ :=
  if request.Method ≠ "GET" then s
  else
    let queryOptions :=
      fromJson J J.decodeParams request.Body GetEmailBatchQueryParams.zero
    if queryOptions.Count ≤ 0 ∨ queryOptions.Page ≤ 0 then
      returnErr J batchParamsError 400 s
    else returnJson J (mdbGetEmailBatch m queryOptions) s

/-! ## The routes registered by `Serve` -/

/-- The five routes of `Serve` (jsonapi.go:164), in the order registered:
`/email/create`, `/email/get`, `/email/get_batch`, `/email/update`,
`/email/delete`. -/
inductive Route where
  | create
  | get
  | getBatch
  | update
  | delete
  deriving DecidableEq, Repr

/-- The method each handler compares `request.Method` with. -/
def Route.method : Route → String
  | .create => "POST"
  | .get => "GET"
  | .getBatch => "GET"
  | .update => "PUT"
  | .delete => "POST"

/-- The handler `Serve` registers for a route. -/
def Route.handler [Inhabited ρ] (J : Json ρ) (m : Mdb σ ρ) :
    Route → Request → World σ ρ → World σ ρ
  | .create => CreateEmail J m
  | .get => GetEmail J m
  | .getBatch => GetEmailBatch J m
  | .update => UpdateEmail J m
  | .delete => DeleteEmail J m

/-- Serving a request on a fresh response writer. -/
def serve [Inhabited ρ] (J : Json ρ) (m : Mdb σ ρ) (r : Route)
    (request : Request) (db : σ) : World σ ρ :=
  r.handler J m request (World.init db)

/-! ## What the client sees (`net/http`) -/

/-- The status code the handler fixes: the first `WriteHeader` decides it, and
a `Write` that comes before any `WriteHeader` sends 200.  It is `none` when the
handler calls neither (what `net/http` does after such a handler returns is
outside the handler). -/
def status : List (WCall ρ) → Option Int
  | [] => none
  | .setHeader _ _ :: r => status r
  | .writeHeader code :: _ => some code
  | .write _ :: _ => some 200

/-- The response body: everything passed to `Write`, in order. -/
def body : List (WCall ρ) → List (Bytes ρ)
  | [] => []
  | .write b :: r => b :: body r
  | _ :: r => body r

/-- The codes of all `WriteHeader` calls, in order. -/
def writeHeaderCalls : List (WCall ρ) → List Int
  | [] => []
  | .writeHeader code :: r => code :: writeHeaderCalls r
  | _ :: r => writeHeaderCalls r

/-- The value of header `key` at the moment the header block is sent (the
first `WriteHeader` or `Write`), starting from value `cur`; `none` when the
log holds neither call. -/
def headerAtSend (key : String) : List (WCall ρ) → Option String →
    Option (Option String)
  | [], _ => none
  | .setHeader k v :: r, cur => headerAtSend key r (if k = key then some v else cur)
  | .writeHeader _ :: _, cur => some cur
  | .write _ :: _, cur => some cur

/-- Whether an `mdb` operation is one of the two reads that run inside the
closure given to `returnJson`. -/
def Op.isFetch : Op ρ → Bool
  | .GetEmail _ => true
  | .GetEmailBatch _ => true
  | _ => false

/-! ## Two shapes shared by the handlers -/

/-- The calls `returnJson` makes on the writer after `setJsonHeader`, given
what the closure returned. -/
def answer (J : Json ρ) (data : Any ρ) : Option GoError → List (WCall ρ)
  | some serverErr =>
    .writeHeader 500 :: (match marshalError serverErr with
      | none => []
      | some serverErrJson => [.write serverErrJson])
  | none =>
    match J.Marshal data with
    | none => [.writeHeader 500]
    | some dataJson => [.write dataJson]

/-- The common tail of the four entry handlers: what happens once the first
`mdb` call `op` has returned `r`. -/
def afterWrite (J : Json ρ) (m : Mdb σ ρ) (op : Op ρ) (r : σ × Option GoError)
    (email : String) (s : World σ ρ) : World σ ρ :=
  match r.2 with
  | some err =>
    returnErr J err 400 { s with db := r.1, calls := s.calls ++ [⟨op, some err⟩] }
  | none =>
    returnJson J (mdbGetEmail m email)
      { s with db := r.1, calls := s.calls ++ [⟨op, none⟩] }

end

/-! ## An in-memory store -/

/-- Modelled from the spec: the store behind package `mdb`, which is not among
the sources.  Records are keyed by `Email`, a unique identifier. -/
abbrev Store (ρ : Type) := List (EmailEntry ρ)

/-- The error of creating an address that is already stored. -/
def duplicateError : GoError := ⟨"email already exists", true⟩

/-- Modelled from the spec: `mdb.CreateEmail`, missing from the sources.
Creating an address that already exists is an error; otherwise a record with
that address is added. -/
def Store.CreateEmail {ρ : Type} [Inhabited ρ] (db : Store ρ) (email : String) :
    Store ρ × Option GoError :=
  if db.any (fun e => e.Email == email) then (db, some duplicateError)
  else (db ++ [⟨email, default⟩], none)

/-- Modelled from the spec: `mdb.GetEmail`, missing from the sources.  Returns
the record keyed by the address, and an empty result when none is stored. -/
def Store.GetEmail {ρ : Type} (db : Store ρ) (email : String) :
    Store ρ × (Option (EmailEntry ρ) × Option GoError) :=
  (db, (db.find? (fun e => e.Email == email), none))

/-- Modelled from the spec: `mdb.UpdateEmail`, missing from the sources.
Replaces the record keyed by the entry's address.  The spec does not say what
happens when no such record exists; here nothing changes. -/
def Store.UpdateEmail {ρ : Type} (db : Store ρ) (entry : EmailEntry ρ) :
    Store ρ × Option GoError :=
  (db.map (fun e => if e.Email == entry.Email then entry else e), none)

/-- Modelled from the spec: `mdb.DeleteEmail`, missing from the sources.
Removes the record keyed by the address, so that a later get finds nothing. -/
def Store.DeleteEmail {ρ : Type} (db : Store ρ) (email : String) :
    Store ρ × Option GoError :=
  (db.filter (fun e => e.Email != email), none)

/-- Modelled from the spec: `mdb.GetEmailBatch`, missing from the sources.
Page `Page` (1-based) of at most `Count` rows. -/
def Store.GetEmailBatch {ρ : Type} (db : Store ρ)
    (params : GetEmailBatchQueryParams) :
    Store ρ × (List (EmailEntry ρ) × Option GoError) :=
  (db, ((db.drop ((params.Page.toNat - 1) * params.Count.toNat)).take
    params.Count.toNat, none))

/-- Modelled from the spec: package `mdb` over the in-memory store. -/
def storeMdb {ρ : Type} [Inhabited ρ] : Mdb (Store ρ) ρ where
  CreateEmail := Store.CreateEmail
  GetEmail := Store.GetEmail
  UpdateEmail := Store.UpdateEmail
  DeleteEmail := Store.DeleteEmail
  GetEmailBatch := Store.GetEmailBatch

/-! ## Sample collaborators and request bodies -/

/-- An error a failing database call returns. -/
def boom : GoError := ⟨"database is locked", true⟩

/-- A collaborator whose writes succeed and whose reads fail with `boom`. -/
def readFailMdb : Mdb Unit Unit where
  CreateEmail _ _ := ((), none)
  GetEmail _ _ := ((), (none, some boom))
  UpdateEmail _ _ := ((), none)
  DeleteEmail _ _ := ((), none)
  GetEmailBatch _ _ := ((), ([], some boom))

/-- A collaborator whose writes fail with `boom`. -/
def writeFailMdb : Mdb Unit Unit where
  CreateEmail _ _ := ((), some boom)
  GetEmail _ _ := ((), (none, none))
  UpdateEmail _ _ := ((), some boom)
  DeleteEmail _ _ := ((), some boom)
  GetEmailBatch _ _ := ((), ([], none))

/-- The request body `{"Email":"a@example.com"}`. -/
def bodyA : String := "\x7b\"Email\":\"a@example.com\"\x7d"

/-- The request body `{"Page":2,"Count":3}`. -/
def bodyPage : String := "\x7b\"Page\":2,\"Count\":3\x7d"

/-- The request body `{"Page":0,"Count":3}`. -/
def bodyPageZero : String := "\x7b\"Page\":0,\"Count\":3\x7d"

/-- A request body cut off in the middle: `{"Email":`. -/
def bodyBroken : String := "\x7b\"Email\":"

/-- What `encoding/json` does on the sample bodies above: the three complete
objects are valid JSON, and each sets the fields of the target that it names
(a key the target does not have is skipped).  Every other input, the cut-off
body and the empty body among them, counts as not valid here. -/
def sampleJson : Json Unit where
  Valid b := b = bodyA ∨ b = bodyPage ∨ b = bodyPageZero
  empty_invalid := by decide
  decodeEntry b t := if b = bodyA then { t with Email := "a@example.com" } else t
  decodeParams b t :=
    if b = bodyPage then ⟨2, 3⟩ else if b = bodyPageZero then ⟨0, 3⟩ else t
  encodes _ := true

/-- An in-memory store holding five addresses. -/
def fiveAddresses : Store Unit :=
  [⟨"a@example.com", ()⟩, ⟨"b@example.com", ()⟩, ⟨"c@example.com", ()⟩,
    ⟨"d@example.com", ()⟩, ⟨"e@example.com", ()⟩]

/-- The in-memory store after `POST /email/create` with `bodyA` on the empty
store. -/
def storeAfterCreate : Store Unit :=
  (serve sampleJson storeMdb .create ⟨"POST", bodyA⟩ []).db

/-- The in-memory store after a following `POST /email/delete` with `bodyA`. -/
def storeAfterDelete : Store Unit :=
  (serve sampleJson storeMdb .delete ⟨"POST", bodyA⟩ storeAfterCreate).db

section
variable {σ ρ : Type}

/-! ## Auxiliary lemmas -/


theorem returnErr_eq (J : Json ρ) (err : GoError) (code : Int) (s : World σ ρ) :
    returnErr J err code s =
      { s with w := s.w ++ [.setHeader "Content-Type" jsonContentType,
          .writeHeader code, .write (.ofValue (.errorMessage err.msg))] } := by
  simp [returnErr, returnJson, setJsonHeader, Json.Marshal, World.WriteHeader,
    World.Write, World.setHeader]

theorem returnJson_GetEmail (J : Json ρ) (m : Mdb σ ρ) (email : String)
    (s : World σ ρ) :
    returnJson J (mdbGetEmail m email) s =
      { db := (m.GetEmail s.db email).1,
        calls := s.calls ++ [⟨.GetEmail email, (m.GetEmail s.db email).2.2⟩],
        w := s.w ++ .setHeader "Content-Type" jsonContentType ::
          answer J (.entry (m.GetEmail s.db email).2.1)
            (m.GetEmail s.db email).2.2 } := by
  unfold returnJson mdbGetEmail setJsonHeader answer
  rcases h : (m.GetEmail s.db email).2.2 with _ | e
  · simp only [World.setHeader, h]
    cases h2 : J.Marshal (.entry (m.GetEmail s.db email).2.1) <;>
      simp [World.WriteHeader, World.Write, h2]
  · simp only [World.setHeader, h]
    cases h2 : (marshalError e : Option (Bytes ρ)) <;>
      simp [World.WriteHeader, World.Write, h2]

theorem returnJson_GetEmailBatch (J : Json ρ) (m : Mdb σ ρ)
    (params : GetEmailBatchQueryParams) (s : World σ ρ) :
    returnJson J (mdbGetEmailBatch m params) s =
      { db := (m.GetEmailBatch s.db params).1,
        calls := s.calls ++
          [⟨.GetEmailBatch params, (m.GetEmailBatch s.db params).2.2⟩],
        w := s.w ++ .setHeader "Content-Type" jsonContentType ::
          answer J (.batch (m.GetEmailBatch s.db params).2.1)
            (m.GetEmailBatch s.db params).2.2 } := by
  unfold returnJson mdbGetEmailBatch setJsonHeader answer
  rcases h : (m.GetEmailBatch s.db params).2.2 with _ | e
  · simp only [World.setHeader, h]
    cases h2 : J.Marshal (.batch (m.GetEmailBatch s.db params).2.1) <;>
      simp [World.WriteHeader, World.Write, h2]
  · simp only [World.setHeader, h]
    cases h2 : (marshalError e : Option (Bytes ρ)) <;>
      simp [World.WriteHeader, World.Write, h2]

theorem afterWrite_err (J : Json ρ) (m : Mdb σ ρ) (op : Op ρ)
    (r : σ × Option GoError) (email : String) (db : σ) (err : GoError)
    (h : r.2 = some err) :
    afterWrite J m op r email (World.init db) =
      ⟨r.1, [⟨op, some err⟩], [.setHeader "Content-Type" jsonContentType,
        .writeHeader 400, .write (.ofValue (.errorMessage err.msg))]⟩ := by
  simp [afterWrite, h, returnErr_eq, World.init]

theorem afterWrite_ok (J : Json ρ) (m : Mdb σ ρ) (op : Op ρ)
    (r : σ × Option GoError) (email : String) (db : σ) (h : r.2 = none) :
    afterWrite J m op r email (World.init db) =
      ⟨(m.GetEmail r.1 email).1,
        [⟨op, none⟩, ⟨.GetEmail email, (m.GetEmail r.1 email).2.2⟩],
        .setHeader "Content-Type" jsonContentType ::
          answer J (.entry (m.GetEmail r.1 email).2.1)
            (m.GetEmail r.1 email).2.2⟩ := by
  simp [afterWrite, h, returnJson_GetEmail, World.init]

theorem CreateEmail_eq [Inhabited ρ] (J : Json ρ) (m : Mdb σ ρ) (body : String)
    (s : World σ ρ) :
    CreateEmail J m ⟨"POST", body⟩ s =
      afterWrite J m
        (.CreateEmail (fromJson J J.decodeEntry body EmailEntry.zero).Email)
        (m.CreateEmail s.db (fromJson J J.decodeEntry body EmailEntry.zero).Email)
        (fromJson J J.decodeEntry body EmailEntry.zero).Email s := by
  unfold CreateEmail afterWrite mdbCreateEmail
  rcases h : (m.CreateEmail s.db
    (fromJson J J.decodeEntry body EmailEntry.zero).Email).2 with _ | e <;>
    simp [h]

theorem GetEmail_eq [Inhabited ρ] (J : Json ρ) (m : Mdb σ ρ) (body : String)
    (s : World σ ρ) :
    GetEmail J m ⟨"GET", body⟩ s =
      afterWrite J m
        (.CreateEmail (fromJson J J.decodeEntry body EmailEntry.zero).Email)
        (m.CreateEmail s.db (fromJson J J.decodeEntry body EmailEntry.zero).Email)
        (fromJson J J.decodeEntry body EmailEntry.zero).Email s := by
  unfold GetEmail afterWrite mdbCreateEmail
  rcases h : (m.CreateEmail s.db
    (fromJson J J.decodeEntry body EmailEntry.zero).Email).2 with _ | e <;>
    simp [h]

theorem UpdateEmail_eq [Inhabited ρ] (J : Json ρ) (m : Mdb σ ρ) (body : String)
    (s : World σ ρ) :
    UpdateEmail J m ⟨"PUT", body⟩ s =
      afterWrite J m
        (.UpdateEmail (fromJson J J.decodeEntry body EmailEntry.zero))
        (m.UpdateEmail s.db (fromJson J J.decodeEntry body EmailEntry.zero))
        (fromJson J J.decodeEntry body EmailEntry.zero).Email s := by
  unfold UpdateEmail afterWrite mdbUpdateEmail
  rcases h : (m.UpdateEmail s.db
    (fromJson J J.decodeEntry body EmailEntry.zero)).2 with _ | e <;>
    simp [h]

theorem DeleteEmail_eq [Inhabited ρ] (J : Json ρ) (m : Mdb σ ρ) (body : String)
    (s : World σ ρ) :
    DeleteEmail J m ⟨"POST", body⟩ s =
      afterWrite J m
        (.DeleteEmail (fromJson J J.decodeEntry body EmailEntry.zero).Email)
        (m.DeleteEmail s.db (fromJson J J.decodeEntry body EmailEntry.zero).Email)
        (fromJson J J.decodeEntry body EmailEntry.zero).Email s := by
  unfold DeleteEmail afterWrite mdbDeleteEmail
  rcases h : (m.DeleteEmail s.db
    (fromJson J J.decodeEntry body EmailEntry.zero).Email).2 with _ | e <;>
    simp [h]

theorem GetEmailBatch_reject (J : Json ρ) (m : Mdb σ ρ) (body : String) (db : σ)
    (h : (fromJson J J.decodeParams body GetEmailBatchQueryParams.zero).Count ≤ 0 ∨
      (fromJson J J.decodeParams body GetEmailBatchQueryParams.zero).Page ≤ 0) :
    GetEmailBatch J m ⟨"GET", body⟩ (World.init db) =
      ⟨db, [], [.setHeader "Content-Type" jsonContentType, .writeHeader 400,
        .write (.ofValue (.errorMessage batchParamsError.msg))]⟩ := by
  unfold GetEmailBatch
  simp [h, returnErr_eq, World.init]

theorem GetEmailBatch_accept (J : Json ρ) (m : Mdb σ ρ) (body : String) (db : σ)
    (h : ¬ ((fromJson J J.decodeParams body GetEmailBatchQueryParams.zero).Count ≤ 0 ∨
      (fromJson J J.decodeParams body GetEmailBatchQueryParams.zero).Page ≤ 0)) :
    GetEmailBatch J m ⟨"GET", body⟩ (World.init db) =
      ⟨(m.GetEmailBatch db
          (fromJson J J.decodeParams body GetEmailBatchQueryParams.zero)).1,
        [⟨.GetEmailBatch (fromJson J J.decodeParams body GetEmailBatchQueryParams.zero),
          (m.GetEmailBatch db
            (fromJson J J.decodeParams body GetEmailBatchQueryParams.zero)).2.2⟩],
        .setHeader "Content-Type" jsonContentType ::
          answer J (.batch (m.GetEmailBatch db
            (fromJson J J.decodeParams body GetEmailBatchQueryParams.zero)).2.1)
            (m.GetEmailBatch db
              (fromJson J J.decodeParams body GetEmailBatchQueryParams.zero)).2.2⟩ := by
  unfold GetEmailBatch
  simp [h, returnJson_GetEmailBatch, World.init]

theorem answer_err (J : Json ρ) (data : Any ρ) (e : GoError) (k v : String) :
    status (.setHeader k v :: answer J data (some e)) = some 500 ∧
      body (.setHeader k v :: answer J data (some e)) = (marshalError e).toList := by
  unfold answer
  cases h : (marshalError e : Option (Bytes ρ)) <;> simp [status, body, h]

theorem answer_ok (J : Json ρ) (data : Any ρ) (k v : String) :
    status (.setHeader k v :: answer J data none) = some 200 ∨
      status (.setHeader k v :: answer J data none) = some 500 := by
  unfold answer
  cases h : J.Marshal data <;> simp [status, h]

theorem answer_writeHeaderCalls (J : Json ρ) (data : Any ρ) (err : Option GoError)
    (k v : String) :
    (writeHeaderCalls (.setHeader k v :: answer J data err)).length ≤ 1 := by
  unfold answer
  cases err with
  | none => cases h : J.Marshal data <;> simp [writeHeaderCalls, h]
  | some e =>
    cases h : (marshalError e : Option (Bytes ρ)) <;> simp [writeHeaderCalls, h]

theorem answer_header (J : Json ρ) (data : Any ρ) (err : Option GoError)
    (v : String) :
    headerAtSend "Content-Type" (.setHeader "Content-Type" v :: answer J data err)
      none = some (some v) := by
  unfold answer
  cases err with
  | none => cases h : J.Marshal data <;> simp [headerAtSend, h]
  | some e => simp [headerAtSend]

theorem afterWrite_error_status (J : Json ρ) (m : Mdb σ ρ) (op : Op ρ)
    (r : σ × Option GoError) (email : String) (db : σ) (hop : op.isFetch = false)
    (c : Call ρ) (e : GoError)
    (hc : c ∈ (afterWrite J m op r email (World.init db)).calls)
    (he : c.err = some e) :
    (c.op.isFetch = false →
      status (afterWrite J m op r email (World.init db)).w = some 400 ∧
      body (afterWrite J m op r email (World.init db)).w =
        [.ofValue (.errorMessage e.msg)]) ∧
    (c.op.isFetch = true →
      status (afterWrite J m op r email (World.init db)).w = some 500 ∧
      body (afterWrite J m op r email (World.init db)).w = (marshalError e).toList) := by
  rcases h : r.2 with _ | err
  · rw [afterWrite_ok J m op r email db h] at hc ⊢
    simp only [List.mem_cons, List.mem_singleton, List.not_mem_nil, or_false] at hc
    rcases hc with rfl | rfl
    · simp at he
    · simp only at he
      simp only [he, Op.isFetch]
      exact ⟨by simp, fun _ => answer_err J _ e _ _⟩
  · rw [afterWrite_err J m op r email db err h] at hc ⊢
    simp only [List.mem_singleton] at hc
    subst hc
    simp only [Option.some.injEq] at he
    subst he
    simp [hop, status, body]

theorem afterWrite_writer (J : Json ρ) (m : Mdb σ ρ) (op : Op ρ)
    (r : σ × Option GoError) (email : String) (db : σ) :
    (writeHeaderCalls (afterWrite J m op r email (World.init db)).w).length ≤ 1 ∧
    headerAtSend "Content-Type" (afterWrite J m op r email (World.init db)).w none =
      some (some jsonContentType) := by
  rcases h : r.2 with _ | err
  · rw [afterWrite_ok J m op r email db h]
    exact ⟨answer_writeHeaderCalls J _ _ _ _, answer_header J _ _ _⟩
  · rw [afterWrite_err J m op r email db err h]
    simp [writeHeaderCalls, headerAtSend]

theorem afterWrite_no_error (J : Json ρ) (m : Mdb σ ρ) (op : Op ρ)
    (r : σ × Option GoError) (email : String) (db : σ)
    (h : ∀ c ∈ (afterWrite J m op r email (World.init db)).calls, c.err = none) :
    status (afterWrite J m op r email (World.init db)).w = some 200 ∨
      status (afterWrite J m op r email (World.init db)).w = some 500 := by
  rcases hr : r.2 with _ | err
  · rw [afterWrite_ok J m op r email db hr] at h ⊢
    have hg : (m.GetEmail r.1 email).2.2 = none := by
      have := h ⟨.GetEmail email, (m.GetEmail r.1 email).2.2⟩ (by simp)
      simpa using this
    rw [hg]
    exact answer_ok J _ _ _
  · rw [afterWrite_err J m op r email db err hr] at h
    have := h ⟨op, some err⟩ (by simp)
    simp at this

theorem afterWrite_calls (J : Json ρ) (m : Mdb σ ρ) (op : Op ρ)
    (r : σ × Option GoError) (email : String) (db : σ) (h : r.2 = none) :
    (afterWrite J m op r email (World.init db)).calls.map Call.op =
      [op, .GetEmail email] := by
  rw [afterWrite_ok J m op r email db h]
  simp

theorem fromJson_invalid {T : Type} (J : Json ρ) (decode : String → T → T)
    (b : String) (target : T) (h : J.Valid b = false) :
    fromJson J decode b target = target := by
  simp [fromJson, Json.Unmarshal, h]

theorem handler_other_method [Inhabited ρ] (J : Json ρ) (m : Mdb σ ρ) (r : Route)
    (request : Request) (s : World σ ρ) (h : request.Method ≠ r.method) :
    r.handler J m request s = s := by
  cases r <;>
    simp only [Route.method] at h <;>
    simp [Route.handler, CreateEmail, GetEmail, UpdateEmail, DeleteEmail,
      GetEmailBatch, h]

theorem serve_writer [Inhabited ρ] (J : Json ρ) (m : Mdb σ ρ) (r : Route)
    (b : String) (db : σ) :
    (writeHeaderCalls (serve J m r ⟨r.method, b⟩ db).w).length ≤ 1 ∧
    headerAtSend "Content-Type" (serve J m r ⟨r.method, b⟩ db).w none =
      some (some jsonContentType) := by
  cases r with
  | create =>
    simp only [serve, Route.handler, Route.method, CreateEmail_eq]
    exact afterWrite_writer J m _ _ _ db
  | get =>
    simp only [serve, Route.handler, Route.method, GetEmail_eq]
    exact afterWrite_writer J m _ _ _ db
  | update =>
    simp only [serve, Route.handler, Route.method, UpdateEmail_eq]
    exact afterWrite_writer J m _ _ _ db
  | delete =>
    simp only [serve, Route.handler, Route.method, DeleteEmail_eq]
    exact afterWrite_writer J m _ _ _ db
  | getBatch =>
    simp only [serve, Route.handler, Route.method]
    by_cases hv :
      (fromJson J J.decodeParams b GetEmailBatchQueryParams.zero).Count ≤ 0 ∨
        (fromJson J J.decodeParams b GetEmailBatchQueryParams.zero).Page ≤ 0
    · rw [GetEmailBatch_reject J m b db hv]
      simp [writeHeaderCalls, headerAtSend]
    · rw [GetEmailBatch_accept J m b db hv]
      exact ⟨answer_writeHeaderCalls J _ _ _ _, answer_header J _ _ _⟩

theorem serve_invalid_body [Inhabited ρ] (J : Json ρ) (m : Mdb σ ρ) (r : Route)
    (b : String) (db : σ) (hbad : J.Valid b = false) :
    serve J m r ⟨r.method, b⟩ db = serve J m r ⟨r.method, ""⟩ db := by
  have h0 := J.empty_invalid
  cases r <;>
    simp [serve, Route.handler, Route.method, CreateEmail, GetEmail, UpdateEmail,
      DeleteEmail, GetEmailBatch, fromJson_invalid, hbad, h0]

/-! ## The claims -/


/-- C1 (as amended): for each of the five handlers and every request with the
matching method, a collaborator call that returned an error decides the
response by where it was made.  When it is a call made before `returnJson`
(not one of the two fetches), the status is 400 and the body is the JSON
object whose `Err` field is the error's message.  When it is the fetch that
runs inside `returnJson` (`mdb.GetEmail` or `mdb.GetEmailBatch`), the status is
500 and the body is the JSON encoding of the error value itself, or empty when
that encoding fails. -/
theorem collaborator_error_response [Inhabited ρ] (J : Json ρ) (m : Mdb σ ρ)
    (r : Route) (b : String) (db : σ) (c : Call ρ) (e : GoError)
    (hc : c ∈ (serve J m r ⟨r.method, b⟩ db).calls) (he : c.err = some e) :
    if c.op.isFetch then
      status (serve J m r ⟨r.method, b⟩ db).w = some 500 ∧
      body (serve J m r ⟨r.method, b⟩ db).w = (marshalError e).toList
    else
      status (serve J m r ⟨r.method, b⟩ db).w = some 400 ∧
      body (serve J m r ⟨r.method, b⟩ db).w = [.ofValue (.errorMessage e.msg)] := by
  have key : ∀ (op : Op ρ) (x : σ × Option GoError) (email : String),
      op.isFetch = false → c ∈ (afterWrite J m op x email (World.init db)).calls →
      if c.op.isFetch then
        status (afterWrite J m op x email (World.init db)).w = some 500 ∧
        body (afterWrite J m op x email (World.init db)).w = (marshalError e).toList
      else
        status (afterWrite J m op x email (World.init db)).w = some 400 ∧
        body (afterWrite J m op x email (World.init db)).w =
          [.ofValue (.errorMessage e.msg)] := by
    intro op x email hop hmem
    have h := afterWrite_error_status J m op x email db hop c e hmem he
    cases hf : c.op.isFetch
    · simpa using h.1 hf
    · simpa using h.2 hf
  cases r with
  | create =>
    simp only [serve, Route.handler, Route.method, CreateEmail_eq] at hc ⊢
    exact key _ _ _ rfl hc
  | get =>
    simp only [serve, Route.handler, Route.method, GetEmail_eq] at hc ⊢
    exact key _ _ _ rfl hc
  | update =>
    simp only [serve, Route.handler, Route.method, UpdateEmail_eq] at hc ⊢
    exact key _ _ _ rfl hc
  | delete =>
    simp only [serve, Route.handler, Route.method, DeleteEmail_eq] at hc ⊢
    exact key _ _ _ rfl hc
  | getBatch =>
    simp only [serve, Route.handler, Route.method] at hc ⊢
    by_cases hv :
      (fromJson J J.decodeParams b GetEmailBatchQueryParams.zero).Count ≤ 0 ∨
        (fromJson J J.decodeParams b GetEmailBatchQueryParams.zero).Page ≤ 0
    · rw [GetEmailBatch_reject J m b db hv] at hc
      simp at hc
    · rw [GetEmailBatch_accept J m b db hv] at hc ⊢
      simp only [List.mem_singleton] at hc
      subst hc
      simp only at he
      simp only [he, Op.isFetch, if_true]
      exact answer_err J _ e _ _

/-- C1, witness: on the create route, a failing write gives 400 with the
message, a failing re-fetch gives 500 with the encoded error. -/
theorem collaborator_error_response_witness :
    (status (serve sampleJson writeFailMdb .create ⟨"POST", bodyA⟩ ()).w = some 400 ∧
      body (serve sampleJson writeFailMdb .create ⟨"POST", bodyA⟩ ()).w =
        [.ofValue (.errorMessage "database is locked")]) ∧
    (status (serve sampleJson readFailMdb .create ⟨"POST", bodyA⟩ ()).w = some 500 ∧
      body (serve sampleJson readFailMdb .create ⟨"POST", bodyA⟩ ()).w =
        [.ofError boom]) :=
  ⟨collaborator_error_response sampleJson writeFailMdb .create bodyA ()
      ⟨.CreateEmail "a@example.com", some boom⟩ boom (by decide) rfl,
    collaborator_error_response sampleJson readFailMdb .create bodyA ()
      ⟨.GetEmail "a@example.com", some boom⟩ boom (by decide) rfl⟩

/-- C1, counterexample: on the create route the write succeeds and the
re-fetch inside `returnJson` returns an error; the status is 500, not 400, and
the body is not the `Err` object. -/
theorem refetch_error_is_500 :
    (serve sampleJson readFailMdb .create ⟨"POST", bodyA⟩ ()).calls =
      [⟨.CreateEmail "a@example.com", none⟩, ⟨.GetEmail "a@example.com", some boom⟩] ∧
    status (serve sampleJson readFailMdb .create ⟨"POST", bodyA⟩ ()).w = some 500 ∧
    ¬ (status (serve sampleJson readFailMdb .create ⟨"POST", bodyA⟩ ()).w = some 400 ∧
      body (serve sampleJson readFailMdb .create ⟨"POST", bodyA⟩ ()).w =
        [.ofValue (.errorMessage boom.msg)]) := by
  decide

/-- C2: a GET to `GetEmailBatch` whose decoded parameters have `Page <= 0` or
`Count <= 0` is answered with status 400 and the error object, and no
collaborator operation is invoked (the database is left as it was). -/
theorem getBatch_rejects_nonpositive [Inhabited ρ] (J : Json ρ) (m : Mdb σ ρ) (b : String)
    (db : σ)
    (h : (fromJson J J.decodeParams b GetEmailBatchQueryParams.zero).Page ≤ 0 ∨
      (fromJson J J.decodeParams b GetEmailBatchQueryParams.zero).Count ≤ 0) :
    status (serve J m .getBatch ⟨"GET", b⟩ db).w = some 400 ∧
    body (serve J m .getBatch ⟨"GET", b⟩ db).w =
      [.ofValue (.errorMessage "Page and Count fields are required and must be > 0")] ∧
    (serve J m .getBatch ⟨"GET", b⟩ db).calls = [] ∧
    (serve J m .getBatch ⟨"GET", b⟩ db).db = db := by
  simp only [serve, Route.handler]
  rw [GetEmailBatch_reject J m b db h.symm]
  simp [status, body, batchParamsError]

/-- C2, witness: the body `{"Page":0,"Count":3}`. -/
theorem getBatch_rejects_nonpositive_witness :
    ((fromJson sampleJson sampleJson.decodeParams bodyPageZero
        GetEmailBatchQueryParams.zero).Page ≤ 0 ∨
      (fromJson sampleJson sampleJson.decodeParams bodyPageZero
        GetEmailBatchQueryParams.zero).Count ≤ 0) ∧
    status (serve sampleJson readFailMdb .getBatch ⟨"GET", bodyPageZero⟩ ()).w =
      some 400 ∧
    body (serve sampleJson readFailMdb .getBatch ⟨"GET", bodyPageZero⟩ ()).w =
      [.ofValue (.errorMessage "Page and Count fields are required and must be > 0")] ∧
    (serve sampleJson readFailMdb .getBatch ⟨"GET", bodyPageZero⟩ ()).calls = [] ∧
    (serve sampleJson readFailMdb .getBatch ⟨"GET", bodyPageZero⟩ ()).db = () :=
  ⟨by decide,
    getBatch_rejects_nonpositive sampleJson readFailMdb bodyPageZero () (by decide)⟩

/-- C3: a GET to `GetEmailBatch` whose decoded parameters have `Page > 0` and
`Count > 0` invokes `mdb.GetEmailBatch` exactly once, with those parameters,
and invokes no other collaborator operation.  The one call is really made on
the collaborator: the logged error is the one `mdb.GetEmailBatch` returned on
the incoming database, the database afterwards is the one it left, and the
response is `returnJson` applied to the page and error it returned. -/
theorem getBatch_calls_once [Inhabited ρ] (J : Json ρ) (m : Mdb σ ρ) (b : String)
    (db : σ)
    (h : 0 < (fromJson J J.decodeParams b GetEmailBatchQueryParams.zero).Page ∧
      0 < (fromJson J J.decodeParams b GetEmailBatchQueryParams.zero).Count) :
    (serve J m .getBatch ⟨"GET", b⟩ db).calls.map Call.op =
      [.GetEmailBatch (fromJson J J.decodeParams b GetEmailBatchQueryParams.zero)] ∧
    (serve J m .getBatch ⟨"GET", b⟩ db).calls =
      [⟨.GetEmailBatch (fromJson J J.decodeParams b GetEmailBatchQueryParams.zero),
        (m.GetEmailBatch db
          (fromJson J J.decodeParams b GetEmailBatchQueryParams.zero)).2.2⟩] ∧
    (serve J m .getBatch ⟨"GET", b⟩ db).db =
      (m.GetEmailBatch db
        (fromJson J J.decodeParams b GetEmailBatchQueryParams.zero)).1 ∧
    (serve J m .getBatch ⟨"GET", b⟩ db).w =
      .setHeader "Content-Type" jsonContentType ::
        answer J
          (.batch (m.GetEmailBatch db
            (fromJson J J.decodeParams b GetEmailBatchQueryParams.zero)).2.1)
          (m.GetEmailBatch db
            (fromJson J J.decodeParams b GetEmailBatchQueryParams.zero)).2.2 := by
  simp only [serve, Route.handler]
  rw [GetEmailBatch_accept J m b db (by omega)]
  simp

/-- C3, witness: the body `{"Page":2,"Count":3}` over an in-memory store of
five addresses: one `mdb.GetEmailBatch` call with page 2 and count 3, and the
response carries the page it returned, the fourth and fifth address. -/
theorem getBatch_calls_once_witness :
    (0 < (fromJson sampleJson sampleJson.decodeParams bodyPage
        GetEmailBatchQueryParams.zero).Page ∧
      0 < (fromJson sampleJson sampleJson.decodeParams bodyPage
        GetEmailBatchQueryParams.zero).Count) ∧
    (serve sampleJson storeMdb .getBatch ⟨"GET", bodyPage⟩
        fiveAddresses).calls.map Call.op = [.GetEmailBatch ⟨2, 3⟩] ∧
    (serve sampleJson storeMdb .getBatch ⟨"GET", bodyPage⟩ fiveAddresses).calls =
      [⟨.GetEmailBatch ⟨2, 3⟩, none⟩] ∧
    (serve sampleJson storeMdb .getBatch ⟨"GET", bodyPage⟩ fiveAddresses).db =
      fiveAddresses ∧
    (serve sampleJson storeMdb .getBatch ⟨"GET", bodyPage⟩ fiveAddresses).w =
      [.setHeader "Content-Type" "application/json; charset=utf-8",
        .write (.ofValue (.batch [⟨"d@example.com", ()⟩, ⟨"e@example.com", ()⟩]))] :=
  ⟨by decide, getBatch_calls_once sampleJson storeMdb bodyPage fiveAddresses (by decide)⟩

/-- C4 (violated by the code): on every GET request the `GetEmail` handler
first calls `mdb.CreateEmail` with the body's `Email`, a write against the
store; `mdb.GetEmail` is reached only when that write returns no error. -/
theorem GetEmail_handler_writes_first [Inhabited ρ] (J : Json ρ) (m : Mdb σ ρ)
    (b : String) (db : σ) :
    (serve J m .get ⟨"GET", b⟩ db).calls.head? =
      some ⟨.CreateEmail (fromJson J J.decodeEntry b EmailEntry.zero).Email,
        (m.CreateEmail db (fromJson J J.decodeEntry b EmailEntry.zero).Email).2⟩ ∧
    (.GetEmail (fromJson J J.decodeEntry b EmailEntry.zero).Email ∈
        (serve J m .get ⟨"GET", b⟩ db).calls.map Call.op ↔
      (m.CreateEmail db (fromJson J J.decodeEntry b EmailEntry.zero).Email).2 = none) := by
  simp only [serve, Route.handler, GetEmail_eq]
  rcases h : (m.CreateEmail (World.init db : World σ ρ).db
      (fromJson J J.decodeEntry b EmailEntry.zero).Email).2 with _ | err
  · rw [afterWrite_ok J m _ _ _ db h]
    simp only [World.init] at h
    simp [h]
  · rw [afterWrite_err J m _ _ _ db err h]
    simp only [World.init] at h
    simp [h]

/-- C5: on the create, update and delete routes, when the write returns no
error the collaborator calls are exactly the write (`mdb.CreateEmail` with the
body's `Email`, `mdb.UpdateEmail` with the decoded entry, `mdb.DeleteEmail`
with the body's `Email`) followed by one `mdb.GetEmail` with the same
`Email`.  Both calls are really made on the collaborator, in that order: the
re-fetch runs on the database the write left, its logged error is the one it
returned, the database afterwards is the one it left, and the response is
`returnJson` applied to the record and error it returned. -/
theorem write_then_refetch [Inhabited ρ] (J : Json ρ) (m : Mdb σ ρ) (b : String)
    (db : σ) :
    ((m.CreateEmail db (fromJson J J.decodeEntry b EmailEntry.zero).Email).2 = none →
      (serve J m .create ⟨"POST", b⟩ db).calls.map Call.op =
        [.CreateEmail (fromJson J J.decodeEntry b EmailEntry.zero).Email, .GetEmail (fromJson J J.decodeEntry b EmailEntry.zero).Email] ∧
      (serve J m .create ⟨"POST", b⟩ db).calls =
        [⟨.CreateEmail (fromJson J J.decodeEntry b EmailEntry.zero).Email, none⟩,
          ⟨.GetEmail (fromJson J J.decodeEntry b EmailEntry.zero).Email,
            (m.GetEmail (m.CreateEmail db (fromJson J J.decodeEntry b EmailEntry.zero).Email).1 (fromJson J J.decodeEntry b EmailEntry.zero).Email).2.2⟩] ∧
      (serve J m .create ⟨"POST", b⟩ db).db =
        (m.GetEmail (m.CreateEmail db (fromJson J J.decodeEntry b EmailEntry.zero).Email).1 (fromJson J J.decodeEntry b EmailEntry.zero).Email).1 ∧
      (serve J m .create ⟨"POST", b⟩ db).w =
        .setHeader "Content-Type" jsonContentType ::
          answer J
            (.entry (m.GetEmail (m.CreateEmail db (fromJson J J.decodeEntry b EmailEntry.zero).Email).1 (fromJson J J.decodeEntry b EmailEntry.zero).Email).2.1)
            (m.GetEmail (m.CreateEmail db (fromJson J J.decodeEntry b EmailEntry.zero).Email).1 (fromJson J J.decodeEntry b EmailEntry.zero).Email).2.2) ∧
    ((m.UpdateEmail db (fromJson J J.decodeEntry b EmailEntry.zero)).2 = none →
      (serve J m .update ⟨"PUT", b⟩ db).calls.map Call.op =
        [.UpdateEmail (fromJson J J.decodeEntry b EmailEntry.zero), .GetEmail (fromJson J J.decodeEntry b EmailEntry.zero).Email] ∧
      (serve J m .update ⟨"PUT", b⟩ db).calls =
        [⟨.UpdateEmail (fromJson J J.decodeEntry b EmailEntry.zero), none⟩,
          ⟨.GetEmail (fromJson J J.decodeEntry b EmailEntry.zero).Email,
            (m.GetEmail (m.UpdateEmail db (fromJson J J.decodeEntry b EmailEntry.zero)).1 (fromJson J J.decodeEntry b EmailEntry.zero).Email).2.2⟩] ∧
      (serve J m .update ⟨"PUT", b⟩ db).db =
        (m.GetEmail (m.UpdateEmail db (fromJson J J.decodeEntry b EmailEntry.zero)).1 (fromJson J J.decodeEntry b EmailEntry.zero).Email).1 ∧
      (serve J m .update ⟨"PUT", b⟩ db).w =
        .setHeader "Content-Type" jsonContentType ::
          answer J
            (.entry (m.GetEmail (m.UpdateEmail db (fromJson J J.decodeEntry b EmailEntry.zero)).1 (fromJson J J.decodeEntry b EmailEntry.zero).Email).2.1)
            (m.GetEmail (m.UpdateEmail db (fromJson J J.decodeEntry b EmailEntry.zero)).1 (fromJson J J.decodeEntry b EmailEntry.zero).Email).2.2) ∧
    ((m.DeleteEmail db (fromJson J J.decodeEntry b EmailEntry.zero).Email).2 = none →
      (serve J m .delete ⟨"POST", b⟩ db).calls.map Call.op =
        [.DeleteEmail (fromJson J J.decodeEntry b EmailEntry.zero).Email, .GetEmail (fromJson J J.decodeEntry b EmailEntry.zero).Email] ∧
      (serve J m .delete ⟨"POST", b⟩ db).calls =
        [⟨.DeleteEmail (fromJson J J.decodeEntry b EmailEntry.zero).Email, none⟩,
          ⟨.GetEmail (fromJson J J.decodeEntry b EmailEntry.zero).Email,
            (m.GetEmail (m.DeleteEmail db (fromJson J J.decodeEntry b EmailEntry.zero).Email).1 (fromJson J J.decodeEntry b EmailEntry.zero).Email).2.2⟩] ∧
      (serve J m .delete ⟨"POST", b⟩ db).db =
        (m.GetEmail (m.DeleteEmail db (fromJson J J.decodeEntry b EmailEntry.zero).Email).1 (fromJson J J.decodeEntry b EmailEntry.zero).Email).1 ∧
      (serve J m .delete ⟨"POST", b⟩ db).w =
        .setHeader "Content-Type" jsonContentType ::
          answer J
            (.entry (m.GetEmail (m.DeleteEmail db (fromJson J J.decodeEntry b EmailEntry.zero).Email).1 (fromJson J J.decodeEntry b EmailEntry.zero).Email).2.1)
            (m.GetEmail (m.DeleteEmail db (fromJson J J.decodeEntry b EmailEntry.zero).Email).1 (fromJson J J.decodeEntry b EmailEntry.zero).Email).2.2) := by
  refine ⟨fun h => ?_, fun h => ?_, fun h => ?_⟩
  · simp only [serve, Route.handler, CreateEmail_eq]
    rw [afterWrite_ok J m _ (m.CreateEmail (World.init db : World σ ρ).db _) _ db h]
    simp [World.init]
  · simp only [serve, Route.handler, UpdateEmail_eq]
    rw [afterWrite_ok J m _ (m.UpdateEmail (World.init db : World σ ρ).db _) _ db h]
    simp [World.init]
  · simp only [serve, Route.handler, DeleteEmail_eq]
    rw [afterWrite_ok J m _ (m.DeleteEmail (World.init db : World σ ρ).db _) _ db h]
    simp [World.init]

/-- C5, witness: the body `{"Email":"a@example.com"}` over the in-memory
store.  Create on the empty store stores the address and answers with the
record; update on the store that holds the address answers with the record;
delete on that store removes the address and the re-fetch answers with the
empty result. -/
theorem write_then_refetch_witness :
    ((serve sampleJson storeMdb .create ⟨"POST", bodyA⟩
        ([] : Store Unit)).calls.map Call.op =
        [.CreateEmail "a@example.com", .GetEmail "a@example.com"] ∧
      (serve sampleJson storeMdb .create ⟨"POST", bodyA⟩ ([] : Store Unit)).calls =
        [⟨.CreateEmail "a@example.com", none⟩, ⟨.GetEmail "a@example.com", none⟩] ∧
      (serve sampleJson storeMdb .create ⟨"POST", bodyA⟩ ([] : Store Unit)).db =
        [⟨"a@example.com", ()⟩] ∧
      (serve sampleJson storeMdb .create ⟨"POST", bodyA⟩ ([] : Store Unit)).w =
        [.setHeader "Content-Type" "application/json; charset=utf-8",
          .write (.ofValue (.entry (some ⟨"a@example.com", ()⟩)))]) ∧
    ((serve sampleJson storeMdb .update ⟨"PUT", bodyA⟩
        ([⟨"a@example.com", ()⟩] : Store Unit)).calls.map Call.op =
        [.UpdateEmail ⟨"a@example.com", ()⟩, .GetEmail "a@example.com"] ∧
      (serve sampleJson storeMdb .update ⟨"PUT", bodyA⟩
        ([⟨"a@example.com", ()⟩] : Store Unit)).calls =
        [⟨.UpdateEmail ⟨"a@example.com", ()⟩, none⟩,
          ⟨.GetEmail "a@example.com", none⟩] ∧
      (serve sampleJson storeMdb .update ⟨"PUT", bodyA⟩
        ([⟨"a@example.com", ()⟩] : Store Unit)).db = [⟨"a@example.com", ()⟩] ∧
      (serve sampleJson storeMdb .update ⟨"PUT", bodyA⟩
        ([⟨"a@example.com", ()⟩] : Store Unit)).w =
        [.setHeader "Content-Type" "application/json; charset=utf-8",
          .write (.ofValue (.entry (some ⟨"a@example.com", ()⟩)))]) ∧
    ((serve sampleJson storeMdb .delete ⟨"POST", bodyA⟩
        ([⟨"a@example.com", ()⟩] : Store Unit)).calls.map Call.op =
        [.DeleteEmail "a@example.com", .GetEmail "a@example.com"] ∧
      (serve sampleJson storeMdb .delete ⟨"POST", bodyA⟩
        ([⟨"a@example.com", ()⟩] : Store Unit)).calls =
        [⟨.DeleteEmail "a@example.com", none⟩, ⟨.GetEmail "a@example.com", none⟩] ∧
      (serve sampleJson storeMdb .delete ⟨"POST", bodyA⟩
        ([⟨"a@example.com", ()⟩] : Store Unit)).db = [] ∧
      (serve sampleJson storeMdb .delete ⟨"POST", bodyA⟩
        ([⟨"a@example.com", ()⟩] : Store Unit)).w =
        [.setHeader "Content-Type" "application/json; charset=utf-8",
          .write (.ofValue (.entry none))]) :=
  ⟨(write_then_refetch sampleJson storeMdb bodyA []).1 (by decide),
    (write_then_refetch sampleJson storeMdb bodyA [⟨"a@example.com", ()⟩]).2.1
      (by decide),
    (write_then_refetch sampleJson storeMdb bodyA [⟨"a@example.com", ()⟩]).2.2
      (by decide)⟩

/-- C6 (violated by the code): over the in-memory store, where creating a
stored address is an error, POST create with `{"Email":"a@example.com"}`
succeeds with status 200 and stores the address; the GET to the `GetEmail`
handler with the same body then calls `mdb.CreateEmail`, which fails, and the
response is status 400 with the `Err` object instead of the record. -/
theorem create_then_get_is_rejected :
    status (serve sampleJson storeMdb .create ⟨"POST", bodyA⟩ ([] : Store Unit)).w =
      some 200 ∧
    storeAfterCreate = [⟨"a@example.com", ()⟩] ∧
    (serve sampleJson storeMdb .get ⟨"GET", bodyA⟩ storeAfterCreate).calls =
      [⟨.CreateEmail "a@example.com", some duplicateError⟩] ∧
    status (serve sampleJson storeMdb .get ⟨"GET", bodyA⟩ storeAfterCreate).w =
      some 400 ∧
    body (serve sampleJson storeMdb .get ⟨"GET", bodyA⟩ storeAfterCreate).w =
      [.ofValue (.errorMessage "email already exists")] := by
  decide

/-- C7 (violated by the code): over the in-memory store, after create and
delete of `a@example.com` the store holds no record for it, but the GET to the
`GetEmail` handler creates the address again: it answers 200 with a stored
record for the address, and the store holds that record afterwards. -/
theorem delete_then_get_recreates :
    storeAfterDelete = [] ∧
    (serve sampleJson storeMdb .get ⟨"GET", bodyA⟩ storeAfterDelete).calls =
      [⟨.CreateEmail "a@example.com", none⟩, ⟨.GetEmail "a@example.com", none⟩] ∧
    status (serve sampleJson storeMdb .get ⟨"GET", bodyA⟩ storeAfterDelete).w =
      some 200 ∧
    body (serve sampleJson storeMdb .get ⟨"GET", bodyA⟩ storeAfterDelete).w =
      [.ofValue (.entry (some ⟨"a@example.com", ()⟩))] ∧
    (serve sampleJson storeMdb .get ⟨"GET", bodyA⟩ storeAfterDelete).db =
      [⟨"a@example.com", ()⟩] := by
  decide

/-- C8: a request whose method differs from the one the handler expects leaves
everything as it was: nothing is called on the response writer (no status, no
header, no body) and no collaborator operation is invoked. -/
theorem wrong_method_is_ignored [Inhabited ρ] (J : Json ρ) (m : Mdb σ ρ)
    (r : Route) (request : Request) (s : World σ ρ) (db : σ)
    (h : request.Method ≠ r.method) :
    r.handler J m request s = s ∧
    (serve J m r request db).w = [] ∧
    status (serve J m r request db).w = none ∧
    body (serve J m r request db).w = [] ∧
    (serve J m r request db).calls = [] ∧
    (serve J m r request db).db = db := by
  refine ⟨handler_other_method J m r request s h, ?_⟩
  simp [serve, handler_other_method J m r request _ h, World.init, status, body]

/-- C8, witness: a DELETE request to the create route. -/
theorem wrong_method_is_ignored_witness :
    "DELETE" ≠ Route.create.method ∧
    Route.handler sampleJson storeMdb .create ⟨"DELETE", bodyA⟩
        ⟨([] : Store Unit), [], []⟩ = ⟨[], [], []⟩ ∧
    (serve sampleJson storeMdb .create ⟨"DELETE", bodyA⟩ ([] : Store Unit)).w = [] ∧
    status (serve sampleJson storeMdb .create ⟨"DELETE", bodyA⟩
      ([] : Store Unit)).w = none ∧
    body (serve sampleJson storeMdb .create ⟨"DELETE", bodyA⟩
      ([] : Store Unit)).w = [] ∧
    (serve sampleJson storeMdb .create ⟨"DELETE", bodyA⟩ ([] : Store Unit)).calls = [] ∧
    (serve sampleJson storeMdb .create ⟨"DELETE", bodyA⟩ ([] : Store Unit)).db = [] :=
  ⟨by decide,
    wrong_method_is_ignored sampleJson storeMdb .create ⟨"DELETE", bodyA⟩
      ⟨[], [], []⟩ [] (by decide)⟩

/-- C9 (as amended): a body that is malformed JSON decodes to the zero-valued
record, and the request is handled exactly as the same request with an empty
body.  On the create, get, update and delete routes the malformed body causes
no 400: whenever every collaborator call made returns no error, the status is
not 400.  On the batch route the zero-valued parameters fail the `Page` /
`Count` check: the status is 400 with the validation message and no
collaborator operation is invoked. -/
theorem malformed_body_is_zero_record [Inhabited ρ] (J : Json ρ) (m : Mdb σ ρ)
    (r : Route) (b : String) (db : σ) (hbad : J.Valid b = false) :
    fromJson J J.decodeEntry b EmailEntry.zero = EmailEntry.zero ∧
    fromJson J J.decodeParams b GetEmailBatchQueryParams.zero =
      GetEmailBatchQueryParams.zero ∧
    serve J m r ⟨r.method, b⟩ db = serve J m r ⟨r.method, ""⟩ db ∧
    if r = .getBatch then
      status (serve J m r ⟨r.method, b⟩ db).w = some 400 ∧
      body (serve J m r ⟨r.method, b⟩ db).w =
        [.ofValue (.errorMessage batchParamsError.msg)] ∧
      (serve J m r ⟨r.method, b⟩ db).calls = []
    else
      ((∀ c ∈ (serve J m r ⟨r.method, b⟩ db).calls, c.err = none) →
        status (serve J m r ⟨r.method, b⟩ db).w ≠ some 400) := by
  refine ⟨fromJson_invalid J _ b _ hbad, fromJson_invalid J _ b _ hbad,
    serve_invalid_body J m r b db hbad, ?_⟩
  have key : ∀ (op : Op ρ) (x : σ × Option GoError) (email : String),
      (∀ c ∈ (afterWrite J m op x email (World.init db)).calls, c.err = none) →
      status (afterWrite J m op x email (World.init db)).w ≠ some 400 := by
    intro op x email h
    rcases afterWrite_no_error J m op x email db h with h2 | h2 <;>
      simp [h2]
  cases r with
  | create =>
    simp only [serve, Route.handler, Route.method, CreateEmail_eq, reduceCtorEq,
      if_false]
    exact key _ _ _
  | get =>
    simp only [serve, Route.handler, Route.method, GetEmail_eq, reduceCtorEq,
      if_false]
    exact key _ _ _
  | update =>
    simp only [serve, Route.handler, Route.method, UpdateEmail_eq, reduceCtorEq,
      if_false]
    exact key _ _ _
  | delete =>
    simp only [serve, Route.handler, Route.method, DeleteEmail_eq, reduceCtorEq,
      if_false]
    exact key _ _ _
  | getBatch =>
    simp only [serve, Route.handler, Route.method, if_true]
    rw [GetEmailBatch_reject J m b db (by
      rw [fromJson_invalid J _ b _ hbad]; simp [GetEmailBatchQueryParams.zero])]
    simp [status, body]

/-- C9, witness: the cut-off body `{"Email":` on the create route over the
empty in-memory store: both collaborator calls succeed and the status is not
400. -/
theorem malformed_body_is_zero_record_witness :
    sampleJson.Valid bodyBroken = false ∧
    fromJson sampleJson sampleJson.decodeEntry bodyBroken EmailEntry.zero =
      EmailEntry.zero ∧
    serve sampleJson storeMdb .create ⟨"POST", bodyBroken⟩ ([] : Store Unit) =
      serve sampleJson storeMdb .create ⟨"POST", ""⟩ [] ∧
    status (serve sampleJson storeMdb .create ⟨"POST", bodyBroken⟩
      ([] : Store Unit)).w ≠ some 400 :=
  have h := malformed_body_is_zero_record sampleJson storeMdb .create bodyBroken
    ([] : Store Unit) (by decide)
  ⟨by decide, h.1, h.2.2.1, h.2.2.2 (by decide)⟩

/-- C9, counterexample: a GET to `GetEmailBatch` with the cut-off body
`{"Email":`.  The body is not valid JSON, no collaborator call is made (so
none fails), and the status is 400. -/
theorem malformed_body_on_getBatch_is_400 :
    sampleJson.Valid bodyBroken = false ∧
    (serve sampleJson storeMdb .getBatch ⟨"GET", bodyBroken⟩
      ([] : Store Unit)).calls = [] ∧
    ¬ (status (serve sampleJson storeMdb .getBatch ⟨"GET", bodyBroken⟩
      ([] : Store Unit)).w ≠ some 400) := by
  decide

/-- C10: whatever the request and whatever the collaborator returns, a handler
calls `WriteHeader` at most once, and either calls nothing on the response
writer or has set `Content-Type` to `application/json; charset=utf-8` by the
time the status and body are sent.  `returnErr` makes exactly three calls on
the writer: the header, `WriteHeader(code)` and the write of the `Err` object;
the `WriteHeader(500)` of `returnJson` is not among them. -/
theorem one_WriteHeader_after_json_header [Inhabited ρ] (J : Json ρ)
    (m : Mdb σ ρ) (r : Route) (request : Request) (db : σ) :
    (writeHeaderCalls (serve J m r request db).w).length ≤ 1 ∧
    ((serve J m r request db).w = [] ∨
      headerAtSend "Content-Type" (serve J m r request db).w none =
        some (some jsonContentType)) ∧
    (∀ (err : GoError) (code : Int) (s : World σ ρ),
      (returnErr J err code s).w = s.w ++
        [.setHeader "Content-Type" jsonContentType, .writeHeader code,
          .write (.ofValue (.errorMessage err.msg))]) ∧
    jsonContentType = "application/json" ++ "; charset=utf-8" := by
  refine ⟨?_, ?_, fun err code s => by rw [returnErr_eq], by decide⟩
  · by_cases hm : request.Method = r.method
    · obtain ⟨method, b⟩ := request
      simp only at hm
      subst hm
      exact (serve_writer J m r b db).1
    · simp [serve, handler_other_method J m r request _ hm, World.init,
        writeHeaderCalls]
  · by_cases hm : request.Method = r.method
    · obtain ⟨method, b⟩ := request
      simp only at hm
      subst hm
      exact Or.inr (serve_writer J m r b db).2
    · simp [serve, handler_other_method J m r request _ hm, World.init]

end

end jsonapi
